import Mathlib

/-!
Shallow embedding of the trace store and pattern-mining analyzer of the
crl-research repository (src/claude-trace): the event model (models.py),
the action logger heuristics (logger.py), the lightweight CLI state
machine (trace.py) and the read-side analyzer (analyzer.py).

Python strings that are inspected character-by-character are embedded as
List Char; mapping values of type Any are embedded through a type
parameter alpha, since (de)serialization passes them through untouched.
Python datetimes are embedded as Nat (microseconds): the only operations
the code performs on them are isoformat / fromisoformat (an exact
round-trip in Python), subtraction and comparison.
-/

/-- Python str, viewed as its character sequence. -/
abbrev PyStr := List Char

/-- Python datetime, as microseconds since the epoch. -/
abbrev DateTime := Nat

/-- Decimal digit rendering used by the isoformat embedding. -/
def digitChar (d : Nat) : Char :=
  match d with
  | 0 => '0' | 1 => '1' | 2 => '2' | 3 => '3' | 4 => '4'
  | 5 => '5' | 6 => '6' | 7 => '7' | 8 => '8' | 9 => '9'
  | _ => '*'

/-- Inverse of digitChar on digits. -/
def charVal (c : Char) : Nat := c.toNat - 48

/-- Recognizer for decimal digit characters. -/
def isDigitCh (c : Char) : Bool := 48 ≤ c.toNat && c.toNat ≤ 57

/-- datetime.isoformat: render the timestamp as a decimal string
(embedding of Python's exact, injective ISO-8601 rendering). -/
def DateTime.isoformat (t : DateTime) : List Char :=
  ((Nat.digits 10 t).map digitChar).reverse

/-- datetime.fromisoformat: parse the rendering back; fails (raises) on a
string that is not a valid rendering. -/
def DateTime.fromisoformat (s : List Char) : Option DateTime :=
  if s.all isDigitCh then some (Nat.ofDigits 10 ((s.map charVal).reverse)) else none

/-- models.ToolType: closed categories of tools. -/
inductive ToolType where
  | VIEW | BASH | READ_PAGE | WEB_SEARCH | WEB_FETCH
  | CREATE_FILE | STR_REPLACE | EXECUTE | UNKNOWN
  deriving DecidableEq, Repr

/-- The string value of each ToolType member (the Enum's value). -/
def ToolType.value : ToolType → String
  | .VIEW => "view"
  | .BASH => "bash_tool"
  | .READ_PAGE => "read_page"
  | .WEB_SEARCH => "web_search"
  | .WEB_FETCH => "web_fetch"
  | .CREATE_FILE => "create_file"
  | .STR_REPLACE => "str_replace"
  | .EXECUTE => "execute"
  | .UNKNOWN => "unknown"

/-- Calling the Enum on a value, ToolType(v): succeeds exactly on the
values of the members, otherwise raises ValueError (here: none). -/
def ToolType.ofValue? (v : String) : Option ToolType :=
  if v = "view" then some .VIEW
  else if v = "bash_tool" then some .BASH
  else if v = "read_page" then some .READ_PAGE
  else if v = "web_search" then some .WEB_SEARCH
  else if v = "web_fetch" then some .WEB_FETCH
  else if v = "create_file" then some .CREATE_FILE
  else if v = "str_replace" then some .STR_REPLACE
  else if v = "execute" then some .EXECUTE
  else if v = "unknown" then some .UNKNOWN
  else none

/-- Python str.lower, as the character-wise lowercase map (the tool
names involved are ASCII). -/
def pyLower (s : String) : String := String.mk (s.data.map Char.toLower)

/-- models.ToolType.from_tool_name: static lookup from a tool name;
unmapped names resolve to UNKNOWN. -/
def ToolType.from_tool_name (name : String) : ToolType :=
  let n := pyLower name
  if n = "view" then .VIEW
  else if n = "bash_tool" then .BASH
  else if n = "read_page" then .READ_PAGE
  else if n = "web_search" then .WEB_SEARCH
  else if n = "web_fetch" then .WEB_FETCH
  else if n = "create_file" then .CREATE_FILE
  else if n = "str_replace" then .STR_REPLACE
  else if n = "file_create" then .CREATE_FILE
  else .UNKNOWN

/-- models.Modality: cognitive modality categories. -/
inductive Modality where
  | TOUCH | VISION | TASTE | MOTOR | PROPRIOCEPTION | PAIN | UNKNOWN
  deriving DecidableEq, Repr

/-- The string value of each Modality member. -/
def Modality.value : Modality → String
  | .TOUCH => "touch"
  | .VISION => "vision"
  | .TASTE => "taste"
  | .MOTOR => "motor"
  | .PROPRIOCEPTION => "proprio"
  | .PAIN => "pain"
  | .UNKNOWN => "unknown"

/-- Calling the Enum on a value, Modality(v): succeeds exactly on member
values, otherwise raises ValueError (here: none). -/
def Modality.ofValue? (v : String) : Option Modality :=
  if v = "touch" then some .TOUCH
  else if v = "vision" then some .VISION
  else if v = "taste" then some .TASTE
  else if v = "motor" then some .MOTOR
  else if v = "proprio" then some .PROPRIOCEPTION
  else if v = "pain" then some .PAIN
  else if v = "unknown" then some .UNKNOWN
  else none

/-- models.ActionTrace: one observed tool invocation. alpha is the type
of the Any-typed values of the inputs mapping. -/
structure ActionTrace (α : Type) where
  trace_id : String
  session_id : String
  sequence_num : Nat
  timestamp : DateTime
  tool : String
  tool_type : ToolType
  inputs : List (String × α)
  output : PyStr
  duration_ms : Option ℚ := none
  goal : Option String := none
  reasoning : Option String := none
  files_touched : List PyStr := []
  success : Option Bool := none
  error : Option PyStr := none
  prior_state_hash : Option String := none
  posterior_state_hash : Option String := none
  modality : Modality := .UNKNOWN

/-- The dictionary form produced by ActionTrace.to_dict: the same flat
record with the timestamp as an ISO string and the closed categories as
their string tags. The modality key is read through dict.get on input,
hence optional here. -/
structure ActionDict (α : Type) where
  trace_id : String
  session_id : String
  sequence_num : Nat
  timestamp : List Char
  tool : String
  tool_type : String
  inputs : List (String × α)
  output : PyStr
  duration_ms : Option ℚ
  goal : Option String
  reasoning : Option String
  files_touched : List PyStr
  success : Option Bool
  error : Option PyStr
  prior_state_hash : Option String
  posterior_state_hash : Option String
  modality : Option String

/-- models.ActionTrace.to_dict. -/
def ActionTrace.to_dict {α : Type} (a : ActionTrace α) : ActionDict α :=
  { trace_id := a.trace_id
    session_id := a.session_id
    sequence_num := a.sequence_num
    timestamp := a.timestamp.isoformat
    tool := a.tool
    tool_type := a.tool_type.value
    inputs := a.inputs
    output := a.output
    duration_ms := a.duration_ms
    goal := a.goal
    reasoning := a.reasoning
    files_touched := a.files_touched
    success := a.success
    error := a.error
    prior_state_hash := a.prior_state_hash
    posterior_state_hash := a.posterior_state_hash
    modality := some a.modality.value }

/-- models.ActionTrace.from_dict: parses the timestamp, calls
ToolType(...) on the tool_type tag and Modality(...) on the modality tag
(defaulting the absent key to "unknown"); any of the three raising maps
to none. -/
def ActionTrace.from_dict {α : Type} (d : ActionDict α) : Option (ActionTrace α) := do
  let ts ← DateTime.fromisoformat d.timestamp
  let tt ← ToolType.ofValue? d.tool_type
  let m ← Modality.ofValue? (d.modality.getD "unknown")
  pure
    { trace_id := d.trace_id
      session_id := d.session_id
      sequence_num := d.sequence_num
      timestamp := ts
      tool := d.tool
      tool_type := tt
      inputs := d.inputs
      output := d.output
      duration_ms := d.duration_ms
      goal := d.goal
      reasoning := d.reasoning
      files_touched := d.files_touched
      success := d.success
      error := d.error
      prior_state_hash := d.prior_state_hash
      posterior_state_hash := d.posterior_state_hash
      modality := m }

/-- models.Session: a bounded task episode. -/
structure Session (α : Type) where
  session_id : String
  started_at : DateTime
  goal : Option String := none
  traces : List (ActionTrace α) := []
  metadata : List (String × α) := []
  completed : Bool := false
  success : Option Bool := none

/-- The dictionary form produced by Session.to_dict. -/
structure SessionDict (α : Type) where
  session_id : String
  started_at : List Char
  goal : Option String
  traces : List (ActionDict α)
  metadata : List (String × α)
  completed : Bool
  success : Option Bool

/-- models.Session.to_dict. -/
def Session.to_dict {α : Type} (s : Session α) : SessionDict α :=
  { session_id := s.session_id
    started_at := s.started_at.isoformat
    goal := s.goal
    traces := s.traces.map ActionTrace.to_dict
    metadata := s.metadata
    completed := s.completed
    success := s.success }

/-- models.Session.from_dict: parses started_at and reconstructs every
trace through ActionTrace.from_dict; a failure in either raises. -/
def Session.from_dict {α : Type} (d : SessionDict α) : Option (Session α) := do
  let ts ← DateTime.fromisoformat d.started_at
  let trs ← d.traces.mapM ActionTrace.from_dict
  pure
    { session_id := d.session_id
      started_at := ts
      goal := d.goal
      traces := trs
      metadata := d.metadata
      completed := d.completed
      success := d.success }

/-!  logger.py: the ActionLogger. -/

/-- Python substring test, x in s. -/
def substrIn (pat : String) (s : PyStr) : Bool := decide (pat.data <:+: s)

/-- Python str.lower over the ASCII range used by the heuristics. -/
def lowerStr (s : PyStr) : PyStr := s.map Char.toLower

/-- Character class of the path regex in _extract_files_touched:
slash, word character, dot or dash. -/
def isPathC (c : Char) : Bool := c = '/' || c.isAlphanum || c = '_' || c = '.' || c = '-'

/-- Lowercase ASCII letter, the [a-z] class of the path regex. -/
def isLowerAZ (c : Char) : Bool := decide ('a' ≤ c) && decide (c ≤ 'z')

/-- One backtracking step of matching the regex [/\w.-]+\.[a-z]+ at the
head of s with the one-or-more prefix bound to exactly k characters:
requires a dot at position k followed by at least one lowercase letter,
which the trailing one-or-more then consumes greedily. -/
def pathTryK (s : PyStr) (k : Nat) : Option (PyStr × PyStr) :=
  match s.drop k with
  | '.' :: rest =>
    let l := rest.takeWhile isLowerAZ
    if l.isEmpty then none else some (s.take k ++ '.' :: l, rest.drop l.length)
  | _ => none

/-- Greedy backtracking of the one-or-more prefix: try the longest
prefix length first, counting k down to 1. -/
def pathBestSplit (s : PyStr) : Nat → Option (PyStr × PyStr)
  | 0 => none
  | k + 1 =>
    match pathTryK s (k + 1) with
    | some r => some r
    | none => pathBestSplit s k

/-- Match the regex at the head of s exactly (the one-or-more prefix can
reach at most the maximal run of path characters). -/
def pathMatchAt (s : PyStr) : Option (PyStr × PyStr) :=
  pathBestSplit s (s.takeWhile isPathC).length

/-- re.findall of the path regex: leftmost, non-overlapping matches.
Fuel-indexed recursion; the initial fuel s.length suffices because every
step consumes at least one character. -/
def pathFindallAux : Nat → PyStr → List PyStr
  | 0, _ => []
  | _ + 1, [] => []
  | fuel + 1, c :: rest =>
    match pathMatchAt (c :: rest) with
    | some (m, r) => m :: pathFindallAux fuel r
    | none => pathFindallAux fuel rest

/-- re.findall applied to a whole command string. -/
def pathFindall (s : PyStr) : List PyStr := pathFindallAux s.length s

/-- logger.ActionLogger._extract_files_touched: collect the path-like
inputs and, for bash commands, the path-like regex matches; list(set(..))
dedups (the set's arbitrary order is rendered as first-occurrence
order). -/
def ActionLogger.extract_files_touched (tool : String) (inputs : List (String × PyStr)) :
    List PyStr :=
  let f1 := match inputs.lookup "path" with | some v => [v] | none => []
  let f2 := match inputs.lookup "file_path" with | some v => [v] | none => []
  let f3 := match inputs.lookup "filepath" with | some v => [v] | none => []
  let f4 :=
    if tool = "bash_tool" then
      match inputs.lookup "command" with
      | some cmd => pathFindall cmd
      | none => []
    else []
  (f1 ++ f2 ++ f3 ++ f4).dedup

/-- The touch-keyword test of the first heuristic rule: any of grep,
find, ls, cat, head, tail occurs in the command. -/
def hasTouchKeyword (cmd : PyStr) : Bool :=
  ["grep", "find", "ls", "cat", "head", "tail"].any fun k => substrIn k cmd

/-- The error-marker test of the pain rule: any of error, failed,
exception, traceback occurs in the lowercased output. -/
def hasErrorMarker (output : PyStr) : Bool :=
  ["error", "failed", "exception", "traceback"].any fun m => substrIn m (lowerStr output)

/-- The run/test keyword test of the proprioception rule. -/
def hasProprioKeyword (cmd : PyStr) : Bool :=
  ["python", "node", "npm", "pytest", "test"].any fun k => substrIn k cmd

/-- logger.ActionLogger._infer_modality: the sequential heuristic rules
of the source, in their order. -/
def ActionLogger.infer_modality (tool : String) (inputs : List (String × PyStr))
    (output : PyStr) : Modality :=
  let cmd := (inputs.lookup "command").getD []
  if (tool = "view" || tool = "bash_tool") && hasTouchKeyword cmd then
    .TOUCH
  else if tool = "read_page" || tool = "web_search" || tool = "web_fetch" then
    .VISION
  else if tool = "create_file" || tool = "str_replace" || tool = "file_create" then
    .MOTOR
  else if (!output.isEmpty) && hasErrorMarker output then
    .PAIN
  else if tool = "bash_tool" && hasProprioKeyword cmd then
    .PROPRIOCEPTION
  else
    .UNKNOWN

/-- Modelled from the spec: storage.SessionBuilder (storage.py is not
under src/; section 4.3 of the spec): the transient builder of the open
session, holding its identifier, goal and the next sequence number to
assign, starting at 0. -/
structure SessionBuilderState where
  session_id : String
  goal : Option String
  next_sequence : Nat

/-- State of an ActionLogger: the store contents and the currently open
session, if any. -/
structure LoggerState where
  storage : List (ActionTrace PyStr)
  current_session : Option SessionBuilderState
  current_goal : Option String

/-- logger.ActionLogger.log_action. Nondeterministic environment inputs
(the fresh uuid and the clock) are passed explicitly. When a session is
open, the builder assigns the next sequence number and forwards the
record to the store (modelled from the spec, section 4.3, storage.py
being absent from src/); otherwise the record is appended directly with
session_id "anonymous" and the sequence number left at 0. -/
def ActionLogger.log_action (st : LoggerState) (trace_id : String) (now : DateTime)
    (tool : String) (inputs : List (String × PyStr)) (output : PyStr)
    (duration_ms : Option ℚ := none) (reasoning : Option String := none)
    (success : Option Bool := none) (error : Option PyStr := none)
    (prior_state_hash : Option String := none)
    (posterior_state_hash : Option String := none) :
    ActionTrace PyStr × LoggerState :=
  let files_touched := ActionLogger.extract_files_touched tool inputs
  let tool_type := ToolType.from_tool_name tool
  let modality := ActionLogger.infer_modality tool inputs output
  let trace : ActionTrace PyStr :=
    { trace_id := trace_id
      session_id := match st.current_session with
        | some sb => sb.session_id
        | none => "anonymous"
      sequence_num := 0
      timestamp := now
      tool := tool
      tool_type := tool_type
      inputs := inputs
      output := if output.isEmpty then [] else output.take 10000
      duration_ms := duration_ms
      goal := st.current_goal
      reasoning := reasoning
      files_touched := files_touched
      success := success
      error := error
      prior_state_hash := prior_state_hash
      posterior_state_hash := posterior_state_hash
      modality := modality }
  match st.current_session with
  | some sb =>
    let assigned := { trace with sequence_num := sb.next_sequence }
    (assigned,
      { st with
        storage := st.storage ++ [assigned]
        current_session := some { sb with next_sequence := sb.next_sequence + 1 } })
  | none =>
    (trace, { st with storage := st.storage ++ [trace] })

/-!  trace.py: the lightweight CLI logger. -/

/-- One JSONL record written by trace.py cmd_log. -/
structure TRecord where
  session_id : String
  sequence : Nat
  timestamp : DateTime
  tool : String
  inputs : List (String × PyStr)
  output : PyStr
  success : Bool
  error : Option PyStr
  reasoning : Option String

/-- The session_meta.json contents kept by trace.py. -/
structure TSession where
  session_id : String
  goal : String
  started_at : DateTime
  sequence : Nat

/-- The on-disk state trace.py works on: the session metadata file, the
current trace file, and the archived files. -/
structure TraceState where
  session : Option TSession
  trace_file : List TRecord
  archived : List (String × List TRecord)

/-- trace.py cmd_start: write fresh session metadata with the sequence
counter at 0 and archive any existing current trace file. -/
def cmd_start (st : TraceState) (now : DateTime) (goal : String) : TraceState :=
  let sid := String.mk (DateTime.isoformat now)
  { session := some { session_id := sid, goal := goal, started_at := now, sequence := 0 }
    trace_file := []
    archived :=
      if st.trace_file.isEmpty then st.archived
      else st.archived ++ [(sid ++ "_prior", st.trace_file)] }

/-- trace.py cmd_end: archive the metadata and traces of the active
session and clear it; a no-op without an active session. -/
def cmd_end (st : TraceState) (_success : Bool) : TraceState :=
  match st.session with
  | none => st
  | some s =>
    { session := none
      trace_file := []
      archived := st.archived ++ [(s.session_id, st.trace_file)] }

/-- trace.py cmd_log: append one record carrying the session's current
sequence counter (0 and "anonymous" without a session), truncating the
output to 2000 characters, then advance the counter if a session is
active. The JSON parsing of the input flag happens before this state
transition and is passed in parsed form. -/
def cmd_log (st : TraceState) (now : DateTime) (tool : String)
    (inputs : List (String × PyStr)) (output : Option PyStr)
    (error : Option PyStr) (reasoning : Option String) : TraceState :=
  let session_id := match st.session with | some s => s.session_id | none => "anonymous"
  let sequence := match st.session with | some s => s.sequence | none => 0
  let record : TRecord :=
    { session_id := session_id
      sequence := sequence
      timestamp := now
      tool := tool
      inputs := inputs
      output := match output with | some o => o.take 2000 | none => []
      success := error.isNone
      error := error
      reasoning := reasoning }
  { st with
    trace_file := st.trace_file ++ [record]
    session := match st.session with
      | some s => some { s with sequence := s.sequence + 1 }
      | none => none }

/-- The argument bundle of one cmd_log invocation. -/
structure LogArgs where
  now : DateTime
  tool : String
  inputs : List (String × PyStr)
  output : Option PyStr
  error : Option PyStr
  reasoning : Option String

/-- Run a list of cmd_log invocations in order. -/
def runLogs (st : TraceState) : List LogArgs → TraceState
  | [] => st
  | a :: rest => runLogs (cmd_log st a.now a.tool a.inputs a.output a.error a.reasoning) rest

/-!  analyzer.py: the TraceAnalyzer, a read-only consumer of the stored
traces. The stored set of traces (what storage.iter_traces yields) is
passed as a list. -/

/-- Insert x into an already processed list, after every element that is
not strictly greater under le; used to embed Python's stable sort. -/
def pyInsert {β : Type} (le : β → β → Bool) (x : β) : List β → List β
  | [] => [x]
  | y :: ys => if le x y && !le y x then x :: y :: ys else y :: pyInsert le x ys

/-- Python's list.sort / sorted: a stable sort by the boolean order le
(new elements land after existing equal ones, preserving the original
relative order of equals). -/
def pySort {β : Type} (le : β → β → Bool) (l : List β) : List β :=
  l.foldl (fun acc x => pyInsert le x acc) []

/-- Milliseconds between two timestamps, (b - a).total_seconds() * 1000
over microsecond timestamps. -/
def msBetween (a b : DateTime) : ℚ := (((b : ℤ) - (a : ℤ) : ℤ) : ℚ) / 1000

/-- collections.Counter of a list: keys in first-occurrence order with
their multiplicities. -/
def counterOf {β : Type} [DecidableEq β] (l : List β) : List (β × Nat) :=
  l.dedup.map fun x => (x, l.count x)

/-- Counter.most_common: the frequency table sorted by count
descending (stable). -/
def mostCommon {β : Type} (c : List (β × Nat)) : List (β × Nat) :=
  pySort (fun a b => decide (b.2 ≤ a.2)) c

/-- Truthiness of an Optional[str]: present and nonempty. -/
def pyTruthyStr : Option PyStr → Bool
  | some e => !e.isEmpty
  | none => false

/-- The shared success-rate computation of get_overall_stats and
get_session_stats: None when no action carries a known outcome, else the
fraction of success=true among the actions with a known outcome. -/
def successRate {α : Type} (traces : List (ActionTrace α)) : Option ℚ :=
  let with_outcome := traces.filter fun t => t.success.isSome
  if with_outcome.isEmpty then none
  else some ((with_outcome.countP (fun t => t.success = some true) : ℚ) / with_outcome.length)

/-- The dict returned by get_overall_stats on a nonempty store. -/
structure OverallStats where
  total_traces : Nat
  unique_sessions : Nat
  tools : List (String × Nat)
  modalities : List (String × Nat)
  time_span_hours : ℚ
  success_rate : Option ℚ
  avg_traces_per_session : ℚ

/-- get_overall_stats returns either the bare empty marker dict or the
full statistics dict. -/
inductive OverallStatsResult where
  | empty : OverallStatsResult
  | stats : OverallStats → OverallStatsResult

/-- The success_rate entry of a get_overall_stats result: absent on the
empty marker dict. -/
def OverallStatsResult.success_rate : OverallStatsResult → Option ℚ
  | .empty => none
  | .stats s => s.success_rate

/-- analyzer.TraceAnalyzer.get_overall_stats. -/
def get_overall_stats {α : Type} (traces : List (ActionTrace α)) : OverallStatsResult :=
  if traces.isEmpty then .empty
  else
    let timestamps := traces.map (fun t => t.timestamp)
    let sessions := counterOf (traces.map fun t => t.session_id)
    .stats
      { total_traces := traces.length
        unique_sessions := sessions.length
        tools := mostCommon (counterOf (traces.map fun t => t.tool))
        modalities := mostCommon (counterOf (traces.map fun t => t.modality.value))
        time_span_hours :=
          (((timestamps.max?.getD 0 : ℤ) - (timestamps.min?.getD 0 : ℤ) : ℤ) : ℚ)
            / 1000000 / 3600
        success_rate := successRate traces
        avg_traces_per_session :=
          if sessions.length ≠ 0 then (traces.length : ℚ) / sessions.length else 0 }

/-- analyzer.TrajectoryStats. -/
structure TrajectoryStats where
  length : Nat
  duration_ms : ℚ
  tools_used : List (String × Nat)
  modalities : List (Modality × Nat)
  unique_files : List PyStr
  error_count : Nat
  success_rate : Option ℚ

/-- Modelled from the spec (section 4.2; storage.py is absent from
src/): TraceStorage.iter_traces with a session_id filter yields that
session's records in non-decreasing sequence_num order. -/
def iter_traces_session {α : Type} (storage : List (ActionTrace α)) (sid : String) :
    List (ActionTrace α) :=
  pySort (fun a b => decide (a.sequence_num ≤ b.sequence_num))
    (storage.filter fun t => t.session_id = sid)

/-- analyzer.TraceAnalyzer.get_session_stats. -/
def get_session_stats {α : Type} (storage : List (ActionTrace α)) (sid : String) :
    Option TrajectoryStats :=
  let traces := iter_traces_session storage sid
  if traces.isEmpty then none
  else
    some
      { length := traces.length
        duration_ms :=
          msBetween ((traces.map fun t => t.timestamp).headD 0)
            ((traces.map fun t => t.timestamp).getLastD 0)
        tools_used := counterOf (traces.map fun t => t.tool)
        modalities := counterOf (traces.map fun t => t.modality)
        unique_files := (traces.flatMap fun t => t.files_touched).dedup
        error_count := traces.countP fun t => pyTruthyStr t.error
        success_rate := successRate traces }

/-- analyzer.TraceAnalyzer.get_trajectories: group by session_id (keys
in first-occurrence order), each group sorted by sequence_num. -/
def get_trajectories {α : Type} (storage : List (ActionTrace α)) :
    List (String × List (ActionTrace α)) :=
  ((storage.map fun t => t.session_id).dedup).map fun sid =>
    (sid, pySort (fun a b => decide (a.sequence_num ≤ b.sequence_num))
      (storage.filter fun t => t.session_id = sid))

/-- Python negative-index read of a timestamp list, traces[j]. -/
def tsAtPy (tss : List DateTime) (j : ℤ) : DateTime :=
  if j < 0 then tss.getD (tss.length - (-j).toNat) 0 else tss.getD j.toNat 0

/-- One n-gram occurrence record of find_tool_sequences: the session it
came from, the n-gram, and the wall-clock duration it spans. -/
structure NgramOcc where
  session_id : String
  ngram : List String
  duration : ℚ

/-- The n-gram occurrences of one trajectory, in iteration order: n over
range(min_length, min(max_length + 1, len + 1)), start positions over
range(len - n + 1). -/
def occsOfTraj {α : Type} (sid : String) (traces : List (ActionTrace α))
    (minL maxL : Nat) : List NgramOcc :=
  let tools := traces.map fun t => t.tool
  let tss := traces.map fun t => t.timestamp
  let L := tools.length
  (List.range' minL (min (maxL + 1) (L + 1) - minL)).flatMap fun n =>
    (List.range (L - n + 1)).map fun i =>
      { session_id := sid
        ngram := (tools.drop i).take n
        duration := msBetween (tss.getD i 0) (tsAtPy tss ((i : ℤ) + (n : ℤ) - 1)) }

/-- All n-gram occurrences across the stored trajectories, in the
iteration order of find_tool_sequences. -/
def allOccs {α : Type} (storage : List (ActionTrace α)) (minL maxL : Nat) :
    List NgramOcc :=
  (get_trajectories storage).flatMap fun p => occsOfTraj p.1 p.2 minL maxL

/-- analyzer.PatternMatch. -/
structure PatternMatch where
  pattern : List String
  frequency : Nat
  example_sessions : List String
  avg_duration_ms : ℚ

/-- analyzer.TraceAnalyzer.find_tool_sequences: accumulate, per distinct
n-gram (keys in first-appearance order, as in the defaultdict), the list
of session ids and durations of its occurrences; retain the n-grams
whose accumulated list has length at least min_frequency; report that
length as the frequency, up to five deduplicated session ids as
examples (the set's arbitrary order rendered as first occurrence), and
the mean duration; sort by frequency descending (stable). -/
def find_tool_sequences {α : Type} (storage : List (ActionTrace α))
    (minL maxL minF : Nat) : List PatternMatch :=
  let occs := allOccs storage minL maxL
  let keys := (occs.map fun o => o.ngram).dedup
  let pats := keys.filterMap fun g =>
    let sessions := (occs.filter fun o => o.ngram = g).map fun o => o.session_id
    let durations := (occs.filter fun o => o.ngram = g).map fun o => o.duration
    if minF ≤ sessions.length then
      some
        { pattern := g
          frequency := sessions.length
          example_sessions := sessions.dedup.take 5
          avg_duration_ms :=
            if durations.length ≠ 0 then durations.sum / (durations.length : ℚ) else 0 }
    else none
  pySort (fun a b => decide (b.frequency ≤ a.frequency)) pats

/-- analyzer.TraceAnalyzer.find_modality_patterns: the same n-gram
mining over the modality value sequences, without durations. -/
def find_modality_patterns {α : Type} (storage : List (ActionTrace α))
    (minL maxL minF : Nat) : List PatternMatch :=
  let occs := (get_trajectories storage).flatMap fun p =>
    let ms := p.2.map fun t => t.modality.value
    let L := ms.length
    (List.range' minL (min (maxL + 1) (L + 1) - minL)).flatMap fun n =>
      (List.range (L - n + 1)).map fun i => (p.1, (ms.drop i).take n)
  let keys := (occs.map fun o => o.2).dedup
  let pats := keys.filterMap fun g =>
    let sessions := (occs.filter fun o => o.2 = g).map fun o => o.1
    if minF ≤ sessions.length then
      some
        { pattern := g
          frequency := sessions.length
          example_sessions := sessions.dedup.take 5
          avg_duration_ms := 0 }
    else none
  pySort (fun a b => decide (b.frequency ≤ a.frequency)) pats

/-- The adjacent state pairs accumulated by compute_transition_matrix,
across all trajectories in iteration order. -/
def transitionPairs {α : Type} (storage : List (ActionTrace α)) (use_modalities : Bool) :
    List (String × String) :=
  (get_trajectories storage).flatMap fun p =>
    let seq := if use_modalities then p.2.map (fun t => t.modality.value)
               else p.2.map fun t => t.tool
    seq.zip seq.tail

/-- analyzer.TraceAnalyzer.compute_transition_matrix: source states (in
first-insertion order) mapped to the frequency table of their
destination states. -/
def compute_transition_matrix {α : Type} (storage : List (ActionTrace α))
    (use_modalities : Bool) : List (String × List (String × Nat)) :=
  let pairs := transitionPairs storage use_modalities
  ((pairs.map fun p => p.1).dedup).map fun s =>
    (s, counterOf ((pairs.filter fun p => p.1 = s).map fun p => p.2))

/-- analyzer.TraceAnalyzer.get_transition_probabilities: each
destination count divided by the total count out of the source. -/
def get_transition_probabilities {α : Type} (storage : List (ActionTrace α))
    (use_modalities : Bool) : List (String × List (String × ℚ)) :=
  (compute_transition_matrix storage use_modalities).map fun e =>
    let total : Nat := (e.2.map fun c => c.2).sum
    (e.1, e.2.map fun c => (c.1, (c.2 : ℚ) / (total : ℚ)))

/-- A node of the tGNN export. -/
structure TgnnNode where
  id : Nat
  tool : String
  tool_type : String
  modality : String
  has_error : Bool
  files_count : Nat
  output_length : Nat
  temporal_position : ℚ

/-- A temporal edge of the tGNN export. -/
structure TgnnEdge where
  source : Nat
  target : Nat
  type : String

/-- A per-session graph record of the tGNN export. -/
structure TgnnGraph where
  session_id : String
  nodes : List TgnnNode
  edges : List TgnnEdge

/-- The node record export_for_tgnn builds for position e.1 of a
trajectory of length N: the action's features and the normalized
temporal position e.1 / N. -/
def tgnnNodeOf {α : Type} (N : Nat) (e : Nat × ActionTrace α) : TgnnNode :=
  { id := e.1
    tool := e.2.tool
    tool_type := e.2.tool_type.value
    modality := e.2.modality.value
    has_error := pyTruthyStr e.2.error
    files_count := e.2.files_touched.length
    output_length := e.2.output.length
    temporal_position := (e.1 : ℚ) / (N : ℚ) }

/-- The temporal edge export_for_tgnn appends for position i > 0: source
i - 1, target i. -/
def tgnnEdgeOf (i : Nat) : TgnnEdge :=
  { source := i - 1
    target := i
    type := "temporal" }

/-- analyzer.TraceAnalyzer.export_for_tgnn: one graph per trajectory;
node i carries the i-th action's features and temporal position
i / len(traces); for every i > 0 an edge with source i - 1 and target i
is appended. -/
def export_for_tgnn {α : Type} (storage : List (ActionTrace α)) : List TgnnGraph :=
  (get_trajectories storage).map fun p =>
    { session_id := p.1
      nodes := p.2.enum.map (tgnnNodeOf p.2.length)
      edges := (List.range p.2.length).filterMap fun i =>
        if 0 < i then some (tgnnEdgeOf i) else none }

/-!  Concrete sample data used by counterexamples and witnesses. -/

/-- A concrete serialized record whose tool_type tag is not a recognized
category value. -/
def c3dict : ActionDict Unit :=
  { trace_id := "t1"
    session_id := "s1"
    sequence_num := 0
    timestamp := ['1']
    tool := "bogus"
    tool_type := "bogus"
    inputs := []
    output := []
    duration_ms := none
    goal := none
    reasoning := none
    files_touched := []
    success := none
    error := none
    prior_state_hash := none
    posterior_state_hash := none
    modality := some "touch" }

/-- A sample stored action with the few fields the analyzer inspects. -/
def sampleTrace (tid sid : String) (seq : Nat) (ts : DateTime) (tool : String)
    (success : Option Bool := none) : ActionTrace Unit :=
  { trace_id := tid
    session_id := sid
    sequence_num := seq
    timestamp := ts
    tool := tool
    tool_type := .UNKNOWN
    inputs := []
    output := []
    success := success }

/-- A store with one session whose tool sequence is a, b, a, b: the
2-gram (a, b) occurs twice inside the single session. -/
def c1store : List (ActionTrace Unit) :=
  [sampleTrace "t0" "s" 0 0 "a", sampleTrace "t1" "s" 1 1000 "b",
    sampleTrace "t2" "s" 2 2000 "a", sampleTrace "t3" "s" 3 3000 "b"]

/-- The number of distinct sessions whose tool sequence contains the
n-gram as a contiguous subsequence: the frequency notion the
specification describes, written from its words for comparison with
find_tool_sequences. -/
def specDistinctSessionCount {α : Type} (storage : List (ActionTrace α))
    (g : List String) : Nat :=
  (get_trajectories storage).countP fun p => decide (g <:+: p.2.map fun t => t.tool)

/-- A store with a single two-action session, tools a then b. -/
def twoStepStore : List (ActionTrace Unit) :=
  [sampleTrace "t0" "s" 0 0 "a", sampleTrace "t1" "s" 1 1 "b"]

/-- A store whose single action carries no known outcome. -/
def c6storeUnknown : List (ActionTrace Unit) :=
  [sampleTrace "t0" "s" 0 0 "a" none]

/-- A store with one successful and one failed action. -/
def c6storeKnown : List (ActionTrace Unit) :=
  [sampleTrace "t0" "s" 0 0 "a" (some true), sampleTrace "t1" "s" 1 1 "b" (some false)]

/-!  Helper lemmas. -/

/-- charVal inverts digitChar on decimal digits. -/
theorem charVal_digitChar (d : Nat) (h : d < 10) : charVal (digitChar d) = d := by
  interval_cases d <;> rfl

/-- digitChar renders decimal digits as digit characters. -/
theorem isDigitCh_digitChar (d : Nat) (h : d < 10) : isDigitCh (digitChar d) = true := by
  interval_cases d <;> rfl

/-- The timestamp rendering round-trips: fromisoformat inverts
isoformat, as Python's datetime does. -/
theorem DateTime.fromisoformat_isoformat (t : DateTime) :
    DateTime.fromisoformat t.isoformat = some t := by
  have hd : ∀ d ∈ Nat.digits 10 t, d < 10 := fun d hmem =>
    Nat.digits_lt_base (by norm_num) hmem
  have hall : (DateTime.isoformat t).all isDigitCh = true := by
    rw [DateTime.isoformat, List.all_reverse, List.all_eq_true]
    intro c hc
    obtain ⟨d, hdm, rfl⟩ := List.mem_map.mp hc
    exact isDigitCh_digitChar d (hd d hdm)
  have hmap : ((Nat.digits 10 t).map digitChar).map charVal = Nat.digits 10 t := by
    rw [List.map_map]
    apply List.map_congr_left ?_ |>.trans (List.map_id _)
    intro d hmem
    exact charVal_digitChar d (hd d hmem)
  rw [DateTime.fromisoformat, if_pos hall, DateTime.isoformat, List.map_reverse,
    List.reverse_reverse, hmap, Nat.ofDigits_digits]

/-- Calling the enum on a member's value returns that member. -/
theorem toolType_ofValue_of_value (t : ToolType) : ToolType.ofValue? t.value = some t := by
  cases t <;> rfl

/-- Calling the enum on a member's value returns that member. -/
theorem modality_ofValue_of_value (m : Modality) : Modality.ofValue? m.value = some m := by
  cases m <;> rfl

/-- One serialized action deserializes back to itself. -/
theorem actionTrace_roundtrip {α : Type} (a : ActionTrace α) :
    ActionTrace.from_dict a.to_dict = some a := by
  simp [ActionTrace.from_dict, ActionTrace.to_dict, DateTime.fromisoformat_isoformat,
    toolType_ofValue_of_value, modality_ofValue_of_value]

/-- A serialized trace list deserializes back to itself. -/
theorem actionTrace_roundtrip_mapM {α : Type} (l : List (ActionTrace α)) :
    (l.map ActionTrace.to_dict).mapM ActionTrace.from_dict = some l := by
  induction l with
  | nil => rfl
  | cons a t ih =>
    rw [List.map_cons, List.mapM_cons, actionTrace_roundtrip]
    show (List.mapM ActionTrace.from_dict (List.map ActionTrace.to_dict t)).bind _ = _
    rw [ih]
    rfl

/-- One serialized session deserializes back to itself. -/
theorem session_roundtrip {α : Type} (s : Session α) :
    Session.from_dict s.to_dict = some s := by
  simp only [Session.from_dict, Session.to_dict, DateTime.fromisoformat_isoformat,
    Option.some_bind]
  show (List.mapM ActionTrace.from_dict (List.map ActionTrace.to_dict s.traces)).bind _ = _
  rw [actionTrace_roundtrip_mapM]
  rfl

/-- C2: for every valid Action record a and Session record s,
deserializing the serialized form returns the original:
ActionTrace.from_dict (a.to_dict) = some a and
Session.from_dict (s.to_dict) = some s. -/
theorem c2_serialization_roundtrip {α : Type} (a : ActionTrace α) (s : Session α) :
    ActionTrace.from_dict a.to_dict = some a ∧ Session.from_dict s.to_dict = some s :=
  ⟨actionTrace_roundtrip a, session_roundtrip s⟩

/-- C3, counterexample: on a record whose tool_type tag "bogus" is
unrecognized, ActionTrace.from_dict fails (raises ValueError, embedded
as none) instead of returning an Action with the UNKNOWN category: there
is no Action it deserializes to. -/
theorem c3_counterexample :
    ToolType.ofValue? c3dict.tool_type = none ∧
      DateTime.fromisoformat c3dict.timestamp = some 1 ∧
      ActionTrace.from_dict c3dict = none := by
  refine ⟨rfl, rfl, ?_⟩
  rfl

/-- C3, amended: deserialization of an Action record fails (raises,
embedded as none) when a category tag is present but unrecognized, for
the tool_type tag as for the modality tag; the fall-back to UNKNOWN for
unrecognized names happens only at ingestion, in
ToolType.from_tool_name. -/
theorem c3_amended_unrecognized_tag_fails {α : Type} (d : ActionDict α) (tag : String)
    (name : String) :
    (ToolType.ofValue? d.tool_type = none → ActionTrace.from_dict d = none) ∧
      (d.modality = some tag → Modality.ofValue? tag = none →
        ActionTrace.from_dict d = none) ∧
      (pyLower name ≠ "view" → pyLower name ≠ "bash_tool" →
        pyLower name ≠ "read_page" → pyLower name ≠ "web_search" →
        pyLower name ≠ "web_fetch" → pyLower name ≠ "create_file" →
        pyLower name ≠ "str_replace" → pyLower name ≠ "file_create" →
        ToolType.from_tool_name name = ToolType.UNKNOWN) := by
  refine ⟨?_, ?_, ?_⟩
  · intro h
    rw [ActionTrace.from_dict]
    cases DateTime.fromisoformat d.timestamp with
    | none => rfl
    | some ts => simp [h]
  · intro hm h
    rw [ActionTrace.from_dict]
    cases DateTime.fromisoformat d.timestamp with
    | none => rfl
    | some ts =>
      cases htt : ToolType.ofValue? d.tool_type with
      | none => simp [htt]
      | some tt => simp [htt, hm, h]
  · intro h1 h2 h3 h4 h5 h6 h7 h8
    rw [ToolType.from_tool_name]
    simp [h1, h2, h3, h4, h5, h6, h7, h8]

/-- Witness for the amended C3 at the concrete record c3dict and the
concrete unmapped name "bogus". -/
theorem c3_amended_witness :
    ActionTrace.from_dict c3dict = none ∧
      ToolType.from_tool_name "bogus" = ToolType.UNKNOWN := by
  have h := c3_amended_unrecognized_tag_fails c3dict "x" "bogus"
  exact ⟨h.1 rfl, h.2.2 (by decide) (by decide) (by decide) (by decide) (by decide)
    (by decide) (by decide) (by decide)⟩

/-- pyInsert only moves the inserted element into the list. -/
theorem pyInsert_perm {β : Type} (le : β → β → Bool) (x : β) (l : List β) :
    (pyInsert le x l).Perm (x :: l) := by
  induction l with
  | nil => exact List.Perm.refl _
  | cons y ys ih =>
    rw [pyInsert]
    split
    · exact List.Perm.refl _
    · exact (List.Perm.cons y ih).trans (List.Perm.swap x y ys)

/-- The fold of pyInsert permutes the accumulator and the remaining
input. -/
theorem foldl_pyInsert_perm {β : Type} (le : β → β → Bool) (l : List β) :
    ∀ acc : List β, (l.foldl (fun acc x => pyInsert le x acc) acc).Perm (acc ++ l) := by
  induction l with
  | nil => intro acc; simp
  | cons x xs ih =>
    intro acc
    rw [List.foldl_cons]
    refine (ih (pyInsert le x acc)).trans ?_
    refine (List.Perm.append_right xs (pyInsert_perm le x acc)).trans ?_
    exact List.perm_middle.symm.trans (List.Perm.refl _) |>.symm.symm

/-- pySort is a permutation. -/
theorem pySort_perm {β : Type} (le : β → β → Bool) (l : List β) :
    (pySort le l).Perm l := by
  simpa using foldl_pyInsert_perm le l []

/-- Membership is preserved by pySort. -/
theorem mem_pySort {β : Type} {le : β → β → Bool} {l : List β} {a : β} :
    a ∈ pySort le l ↔ a ∈ l :=
  (pySort_perm le l).mem_iff

/-- Running cmd_log invocations on an active session appends records
carrying the consecutive counter values and the session's id, and
advances the counter by the number of invocations. -/
theorem runLogs_with_session (largs : List LogArgs) :
    ∀ (s : TSession) (file : List TRecord) (arch : List (String × List TRecord)),
    ((runLogs ⟨some s, file, arch⟩ largs).trace_file.map fun r => r.sequence) =
        (file.map fun r => r.sequence) ++ List.range' s.sequence largs.length ∧
      ((runLogs ⟨some s, file, arch⟩ largs).trace_file.map fun r => r.session_id) =
        (file.map fun r => r.session_id) ++ List.replicate largs.length s.session_id ∧
      ∃ s2, (runLogs ⟨some s, file, arch⟩ largs).session = some s2 ∧
        s2.sequence = s.sequence + largs.length ∧ s2.session_id = s.session_id := by
  induction largs with
  | nil =>
    intro s file arch
    refine ⟨by simp [runLogs], by simp [runLogs], s, rfl, by simp, rfl⟩
  | cons a rest ih =>
    intro s file arch
    have hrun : runLogs ⟨some s, file, arch⟩ (a :: rest) =
        runLogs (cmd_log ⟨some s, file, arch⟩ a.now a.tool a.inputs a.output a.error
          a.reasoning) rest := rfl
    have hsess : (cmd_log ⟨some s, file, arch⟩ a.now a.tool a.inputs a.output a.error
        a.reasoning).session = some { s with sequence := s.sequence + 1 } := rfl
    have harch : (cmd_log ⟨some s, file, arch⟩ a.now a.tool a.inputs a.output a.error
        a.reasoning).archived = arch := rfl
    have hmapseq : ((cmd_log ⟨some s, file, arch⟩ a.now a.tool a.inputs a.output a.error
        a.reasoning).trace_file.map fun r => r.sequence) =
        (file.map fun r => r.sequence) ++ [s.sequence] := by
      simp [cmd_log]
    have hmapsid : ((cmd_log ⟨some s, file, arch⟩ a.now a.tool a.inputs a.output a.error
        a.reasoning).trace_file.map fun r => r.session_id) =
        (file.map fun r => r.session_id) ++ [s.session_id] := by
      simp [cmd_log]
    have hst : cmd_log ⟨some s, file, arch⟩ a.now a.tool a.inputs a.output a.error
        a.reasoning = ⟨some { s with sequence := s.sequence + 1 },
          (cmd_log ⟨some s, file, arch⟩ a.now a.tool a.inputs a.output a.error
            a.reasoning).trace_file, arch⟩ := rfl
    obtain ⟨h1, h2, s2, hs2, hseq, hsid⟩ :=
      ih { s with sequence := s.sequence + 1 }
        (cmd_log ⟨some s, file, arch⟩ a.now a.tool a.inputs a.output a.error
          a.reasoning).trace_file arch
    rw [hrun, hst]
    have hseq2 : s2.sequence = s.sequence + 1 + rest.length := hseq
    refine ⟨?_, ?_, s2, hs2, by simp only [List.length_cons]; omega, hsid⟩
    · rw [h1, hmapseq]
      simp [List.range'_succ]
    · rw [h2, hmapsid]
      simp [List.replicate_succ]

/-- C4: starting a session with cmd_start and appending N actions with
cmd_log yields a trace file whose sequence values are exactly 0..N-1 in
append order (no gaps, no duplicates), and leaves the session counter at
N: each action received the counter's current value and the counter then
advanced by one, from 0 at session start. -/
theorem c4_sequence_nums_contiguous (st : TraceState) (now : DateTime) (goal : String)
    (largs : List LogArgs) :
    ((runLogs (cmd_start st now goal) largs).trace_file.map fun r => r.sequence) =
      List.range largs.length ∧
    ∃ s2, (runLogs (cmd_start st now goal) largs).session = some s2 ∧
      s2.sequence = largs.length := by
  have hstart : cmd_start st now goal =
      ⟨some { session_id := String.mk (DateTime.isoformat now), goal := goal, started_at := now, sequence := 0 }, [], (cmd_start st now goal).archived⟩ := rfl
  obtain ⟨h1, h2, s2, hs2, hseq, hsid⟩ := runLogs_with_session largs
    { session_id := String.mk (DateTime.isoformat now), goal := goal, started_at := now, sequence := 0 }
    [] (cmd_start st now goal).archived
  rw [hstart]
  refine ⟨?_, s2, hs2, ?_⟩
  · rw [h1]
    simp [List.range_eq_range']
  · have hseq2 : s2.sequence = 0 + largs.length := hseq
    omega

/-- C10: a log_action call with no open session does not fail: it
returns a record with session_id "anonymous" and sequence_num 0,
appended directly to the store, and the (absent) per-session counter is
not advanced. -/
theorem c10_log_action_without_session (st : LoggerState)
    (h : st.current_session = none) (trace_id : String) (now : DateTime)
    (tool : String) (inputs : List (String × PyStr)) (output : PyStr)
    (duration_ms : Option ℚ) (reasoning : Option String) (success : Option Bool)
    (error : Option PyStr) (ph po : Option String) :
    (ActionLogger.log_action st trace_id now tool inputs output duration_ms
        reasoning success error ph po).1.session_id = "anonymous" ∧
      (ActionLogger.log_action st trace_id now tool inputs output duration_ms
        reasoning success error ph po).1.sequence_num = 0 ∧
      (ActionLogger.log_action st trace_id now tool inputs output duration_ms
        reasoning success error ph po).2.storage =
        st.storage ++ [(ActionLogger.log_action st trace_id now tool inputs output
          duration_ms reasoning success error ph po).1] ∧
      (ActionLogger.log_action st trace_id now tool inputs output duration_ms
        reasoning success error ph po).2.current_session = none := by
  simp [ActionLogger.log_action, h]

/-- Witness for C10 at a concrete empty logger state and a concrete
call. -/
theorem c10_witness :
    (ActionLogger.log_action ⟨[], none, none⟩ "id0" 5 "bash_tool" [] ['o', 'k']
        none none none none none none).1.session_id = "anonymous" ∧
      (ActionLogger.log_action ⟨[], none, none⟩ "id0" 5 "bash_tool" [] ['o', 'k']
        none none none none none none).1.sequence_num = 0 ∧
      (ActionLogger.log_action ⟨[], none, none⟩ "id0" 5 "bash_tool" [] ['o', 'k']
        none none none none none none).2.storage =
        [] ++ [(ActionLogger.log_action ⟨[], none, none⟩ "id0" 5 "bash_tool" []
          ['o', 'k'] none none none none none none).1] ∧
      (ActionLogger.log_action ⟨[], none, none⟩ "id0" 5 "bash_tool" [] ['o', 'k']
        none none none none none none).2.current_session = none :=
  c10_log_action_without_session ⟨[], none, none⟩ rfl "id0" 5 "bash_tool" []
    ['o', 'k'] none none none none none none

/-- C9: the record stored by log_action has its output clamped to the
first 10000 characters (outputs of at most 10000 characters are stored
unchanged, an empty output is stored as the empty string), and the
truncation touches no other field: every other field is computed from
the untruncated call arguments. -/
theorem c9_output_truncation (st : LoggerState) (trace_id : String) (now : DateTime)
    (tool : String) (inputs : List (String × PyStr)) (output : PyStr)
    (duration_ms : Option ℚ) (reasoning : Option String) (success : Option Bool)
    (error : Option PyStr) (ph po : Option String) (tr : ActionTrace PyStr)
    (st2 : LoggerState)
    (h : ActionLogger.log_action st trace_id now tool inputs output duration_ms
      reasoning success error ph po = (tr, st2)) :
    tr.output = output.take 10000 ∧
      tr.output.length ≤ 10000 ∧
      (output.length ≤ 10000 → tr.output = output) ∧
      (output = [] → tr.output = []) ∧
      tr.modality = ActionLogger.infer_modality tool inputs output ∧
      tr.tool_type = ToolType.from_tool_name tool ∧
      tr.files_touched = ActionLogger.extract_files_touched tool inputs ∧
      tr.tool = tool ∧ tr.inputs = inputs ∧ tr.timestamp = now ∧
      tr.duration_ms = duration_ms ∧ tr.reasoning = reasoning ∧
      tr.success = success ∧ tr.error = error := by
  have hclamp : (if output.isEmpty then ([] : PyStr) else output.take 10000) =
      output.take 10000 := by
    cases output with
    | nil => rfl
    | cons c cs => rfl
  have htr : tr = (ActionLogger.log_action st trace_id now tool inputs output
      duration_ms reasoning success error ph po).1 := by rw [h]
  cases hcs : st.current_session with
  | none =>
    simp only [ActionLogger.log_action, hcs] at htr
    subst htr
    refine ⟨hclamp, ?_, ?_, ?_, rfl, rfl, rfl, rfl, rfl, rfl, rfl, rfl, rfl, rfl⟩
    · rw [hclamp, List.length_take]
      omega
    · intro hle
      rw [hclamp, List.take_of_length_le hle]
    · intro he
      subst he
      rfl
  | some sb =>
    simp only [ActionLogger.log_action, hcs] at htr
    subst htr
    refine ⟨hclamp, ?_, ?_, ?_, rfl, rfl, rfl, rfl, rfl, rfl, rfl, rfl, rfl, rfl⟩
    · rw [hclamp, List.length_take]
      omega
    · intro hle
      rw [hclamp, List.take_of_length_le hle]
    · intro he
      subst he
      rfl

/-- Witness for C9 at a concrete logger state and call. -/
theorem c9_witness :
    (ActionLogger.log_action ⟨[], none, none⟩ "id1" 7 "view" [] ['o', 'k'] none none
        none none none none).1.output = ['o', 'k'] ∧
      (ActionLogger.log_action ⟨[], none, none⟩ "id1" 7 "view" [] ['o', 'k'] none none
        none none none none).1.output.length ≤ 10000 := by
  obtain ⟨h1, h2, h3, h4, hrest⟩ := c9_output_truncation ⟨[], none, none⟩ "id1" 7
    "view" [] ['o', 'k'] none none none none none none
    (ActionLogger.log_action ⟨[], none, none⟩ "id1" 7 "view" [] ['o', 'k'] none none
      none none none none).1
    (ActionLogger.log_action ⟨[], none, none⟩ "id1" 7 "view" [] ['o', 'k'] none none
      none none none none).2 rfl
  exact ⟨h3 (by decide), h2⟩

/-- C8, counterexample: with an open session, the touch-category tool
bash_tool run with the command "grep x" and an output containing the
error marker "error" is classified TOUCH, not PAIN: the error-bearing
output does not override the touch rule when a touch keyword occurs in
the command. -/
theorem c8_counterexample :
    hasErrorMarker ['e', 'r', 'r', 'o', 'r'] = true ∧
      (ActionLogger.log_action ⟨[], some ⟨"s1", none, 0⟩, none⟩ "id2" 3 "bash_tool"
        [("command", ['g', 'r', 'e', 'p', ' ', 'x'])] ['e', 'r', 'r', 'o', 'r']
        none none none none none none).1.modality = Modality.TOUCH ∧
      Modality.TOUCH ≠ Modality.PAIN := by
  refine ⟨by decide, by decide, by decide⟩

/-- C8, amended: with an open session and a touch-category tool (view or
bash_tool), an output containing an error marker yields the PAIN
modality provided no touch keyword (grep, find, ls, cat, head, tail)
occurs in the command input; with such a keyword the touch rule takes
precedence. -/
theorem c8_amended_error_output_is_pain (st : LoggerState) (sb : SessionBuilderState)
    (hopen : st.current_session = some sb) (trace_id : String) (now : DateTime)
    (tool : String) (inputs : List (String × PyStr)) (output : PyStr)
    (duration_ms : Option ℚ) (reasoning : Option String) (success : Option Bool)
    (error : Option PyStr) (ph po : Option String)
    (htool : tool = "view" ∨ tool = "bash_tool")
    (herr : hasErrorMarker output = true)
    (hcmd : hasTouchKeyword ((inputs.lookup "command").getD []) = false) :
    (ActionLogger.log_action st trace_id now tool inputs output duration_ms
      reasoning success error ph po).1.modality = Modality.PAIN := by
  have hmod : (ActionLogger.log_action st trace_id now tool inputs output duration_ms
      reasoning success error ph po).1.modality =
      ActionLogger.infer_modality tool inputs output := by
    simp [ActionLogger.log_action, hopen]
  rw [hmod]
  have hne : output.isEmpty = false := by
    cases output with
    | nil => exact absurd herr (by decide)
    | cons c cs => rfl
  rcases htool with rfl | rfl <;>
    simp [ActionLogger.infer_modality, hcmd, hne, herr]

/-- Witness for the amended C8 at a concrete open-session state: a view
action with no command input and the output "error" is classified
PAIN. -/
theorem c8_amended_witness :
    (ActionLogger.log_action ⟨[], some ⟨"s1", none, 0⟩, none⟩ "id3" 4 "view" []
      ['e', 'r', 'r', 'o', 'r'] none none none none none none).1.modality =
      Modality.PAIN :=
  c8_amended_error_output_is_pain ⟨[], some ⟨"s1", none, 0⟩, none⟩ ⟨"s1", none, 0⟩
    rfl "id3" 4 "view" [] ['e', 'r', 'r', 'o', 'r'] none none none none none none
    (Or.inl rfl) (by decide) (by decide)

/-- When no action carries an outcome, the shared success-rate
computation reports absent. -/
theorem successRate_eq_none {α : Type} (ts : List (ActionTrace α))
    (h : ∀ t ∈ ts, t.success = none) : successRate ts = none := by
  have hfil : ts.filter (fun t => t.success.isSome) = [] := by
    rw [List.filter_eq_nil_iff]
    intro t ht
    simp [h t ht]
  rw [successRate]
  simp [hfil]

/-- When some action carries an outcome, the shared success-rate
computation divides by the positive count of actions with a known
outcome. -/
theorem successRate_eq_some {α : Type} (ts : List (ActionTrace α))
    (h : ∃ t ∈ ts, t.success.isSome = true) :
    0 < ts.countP (fun t => t.success.isSome) ∧
      successRate ts =
        some ((ts.countP (fun t => t.success = some true) : ℚ) /
          (ts.countP (fun t => t.success.isSome) : ℚ)) := by
  have hpos : 0 < ts.countP (fun t => t.success.isSome) :=
    List.countP_pos_iff.mpr h
  have hlen : (ts.filter (fun t => t.success.isSome)).length =
      ts.countP (fun t => t.success.isSome) :=
    (List.countP_eq_length_filter _ _).symm
  have hemp : (ts.filter (fun t => t.success.isSome)).isEmpty = false := by
    rw [List.isEmpty_eq_false]
    intro hnil
    rw [hnil] at hlen
    simp at hlen
    omega
  have hcnt : (ts.filter (fun t => t.success.isSome)).countP
      (fun t => t.success = some true) = ts.countP (fun t => t.success = some true) := by
    rw [List.countP_filter]
    refine List.countP_congr ?_
    intro t _
    cases hs : t.success with
    | none => simp [hs]
    | some b => simp [hs]
  rw [successRate]
  simp only [hemp, Bool.false_eq_true, if_false, hcnt, hlen]
  exact ⟨hpos, trivial⟩

/-- C6: over a stored set in which no action has a known outcome, both
get_overall_stats and get_session_stats report the success rate as
absent, with no division performed; when some action has a known
outcome, the reported rate is the count of success=true actions divided
by the (positive) count of actions with a known outcome. -/
theorem c6_success_rate_null_handling {α : Type} (traces : List (ActionTrace α))
    (sid : String) :
    ((∀ t ∈ traces, t.success = none) →
        (get_overall_stats traces).success_rate = none ∧
        ((get_session_stats traces sid).bind fun s => s.success_rate) = none) ∧
      ((∃ t ∈ traces, t.success.isSome = true) →
        0 < traces.countP (fun t => t.success.isSome) ∧
        (get_overall_stats traces).success_rate =
          some ((traces.countP (fun t => t.success = some true) : ℚ) /
            (traces.countP (fun t => t.success.isSome) : ℚ))) ∧
      ((∃ t ∈ iter_traces_session traces sid, t.success.isSome = true) →
        0 < (iter_traces_session traces sid).countP (fun t => t.success.isSome) ∧
        ((get_session_stats traces sid).bind fun s => s.success_rate) =
          some (((iter_traces_session traces sid).countP
              (fun t => t.success = some true) : ℚ) /
            ((iter_traces_session traces sid).countP
              (fun t => t.success.isSome) : ℚ))) := by
  refine ⟨?_, ?_, ?_⟩
  · intro h
    constructor
    · by_cases hemp : traces.isEmpty
      · simp [get_overall_stats, hemp, OverallStatsResult.success_rate]
      · simp [get_overall_stats, hemp, OverallStatsResult.success_rate,
          successRate_eq_none traces h]
    · have hsub : ∀ t ∈ iter_traces_session traces sid, t.success = none := by
        intro t ht
        rw [iter_traces_session, mem_pySort, List.mem_filter] at ht
        exact h t ht.1
      by_cases hemp : (iter_traces_session traces sid).isEmpty
      · simp [get_session_stats, hemp]
      · simp [get_session_stats, hemp,
          successRate_eq_none (iter_traces_session traces sid) hsub]
  · intro h
    obtain ⟨hpos, hrate⟩ := successRate_eq_some traces h
    have hemp : traces.isEmpty = false := by
      rw [List.isEmpty_eq_false]
      rintro rfl
      obtain ⟨t, ht, _⟩ := h
      exact absurd ht (List.not_mem_nil t)
    refine ⟨hpos, ?_⟩
    simp [get_overall_stats, hemp, OverallStatsResult.success_rate, hrate]
  · intro h
    obtain ⟨hpos, hrate⟩ := successRate_eq_some (iter_traces_session traces sid) h
    have hemp : (iter_traces_session traces sid).isEmpty = false := by
      rw [List.isEmpty_eq_false]
      intro hnil
      rw [hnil] at h
      obtain ⟨t, ht, _⟩ := h
      exact absurd ht (List.not_mem_nil t)
    refine ⟨hpos, ?_⟩
    simp [get_session_stats, hemp, hrate]

/-- Witness for C6: the all-unknown store reports absent rates, and the
two-outcome store reports the quotient of the outcome counts. -/
theorem c6_witness :
    (get_overall_stats c6storeUnknown).success_rate = none ∧
      ((get_session_stats c6storeUnknown "s").bind fun s => s.success_rate) = none ∧
      (get_overall_stats c6storeKnown).success_rate =
        some ((c6storeKnown.countP (fun t => t.success = some true) : ℚ) /
          (c6storeKnown.countP (fun t => t.success.isSome) : ℚ)) := by
  obtain ⟨h1, _, _⟩ := c6_success_rate_null_handling c6storeUnknown "s"
  obtain ⟨_, h2, _⟩ := c6_success_rate_null_handling c6storeKnown "s"
  obtain ⟨ha, hb⟩ := h1 (by decide)
  exact ⟨ha, hb, (h2 (by decide)).2⟩

/-- Dividing every element before summing divides the sum. -/
theorem list_map_div_sum (l : List ℚ) (d : ℚ) :
    (l.map fun x => x / d).sum = l.sum / d := by
  induction l with
  | nil => simp
  | cons x xs ih => simp [ih, add_div]

/-- The multiplicities recorded by a Counter sum to the length of the
counted list. -/
theorem counterOf_snd_sum {β : Type} [DecidableEq β] (l : List β) :
    ((counterOf l).map fun c => c.2).sum = l.length := by
  rw [counterOf, List.map_map]
  exact List.sum_map_count_dedup_eq_length l

/-- Normalizing a Counter's multiplicities by their sum yields values
summing to exactly 1 whenever the counted list is nonempty. -/
theorem counter_probs_sum {β : Type} [DecidableEq β] (l : List β) (hl : l ≠ []) :
    (((counterOf l).map fun c =>
        (c.1, (c.2 : ℚ) / ((((counterOf l).map fun c => c.2).sum : Nat) : ℚ))).map
      fun e => e.2).sum = 1 := by
  have htot : (((counterOf l).map fun c => c.2).sum : Nat) = l.length :=
    counterOf_snd_sum l
  have hpos : 0 < l.length := List.length_pos.mpr hl
  have hne : ((((counterOf l).map fun c => c.2).sum : Nat) : ℚ) ≠ 0 := by
    rw [htot]
    exact_mod_cast Nat.pos_iff_ne_zero.mp hpos
  rw [List.map_map]
  have hcomp : ((fun e => e.2) ∘ fun c : β × Nat =>
      (c.1, (c.2 : ℚ) / ((((counterOf l).map fun c => c.2).sum : Nat) : ℚ))) =
      fun c : β × Nat => (c.2 : ℚ) / ((((counterOf l).map fun c => c.2).sum : Nat) : ℚ) :=
    rfl
  rw [hcomp]
  have hsplit : ((counterOf l).map fun c : β × Nat =>
      (c.2 : ℚ) / ((((counterOf l).map fun c => c.2).sum : Nat) : ℚ)) =
      (((counterOf l).map fun c => (c.2 : ℚ)).map
        fun x => x / ((((counterOf l).map fun c => c.2).sum : Nat) : ℚ)) := by
    rw [List.map_map]
    rfl
  rw [hsplit, list_map_div_sum]
  have hcast : ((counterOf l).map fun c : β × Nat => (c.2 : ℚ)).sum =
      ((((counterOf l).map fun c => c.2).sum : Nat) : ℚ) := by
    rw [Nat.cast_list_sum, List.map_map]
    rfl
  rw [hcast]
  exact div_self hne

/-- Each normalized Counter entry is the element's multiplicity divided
by the length of the counted list. -/
theorem counter_probs_entry {β : Type} [DecidableEq β] (l : List β) (e : β × ℚ)
    (he : e ∈ (counterOf l).map fun c =>
      (c.1, (c.2 : ℚ) / ((((counterOf l).map fun c => c.2).sum : Nat) : ℚ))) :
    e.2 = (l.count e.1 : ℚ) / (l.length : ℚ) := by
  have htot : (((counterOf l).map fun c => c.2).sum : Nat) = l.length :=
    counterOf_snd_sum l
  rw [List.mem_map] at he
  obtain ⟨c, hc, rfl⟩ := he
  rw [counterOf, List.mem_map] at hc
  obtain ⟨x, _, rfl⟩ := hc
  simp only
  rw [htot]

/-- The multiplicity of a destination among a source's observed
destinations equals the count of (source, destination) transitions. -/
theorem count_dests_eq_countP (pairs : List (String × String)) (src x : String) :
    List.count x ((pairs.filter fun p => p.1 = src).map fun p => p.2) =
      pairs.countP fun p => p.1 = src && p.2 = x := by
  rw [List.count_eq_countP, List.countP_map, List.countP_filter]
  refine List.countP_congr ?_
  intro p _
  simp only [Function.comp_apply, Bool.and_eq_true, beq_iff_eq, decide_eq_true_eq]
  exact and_comm

/-- C5: for every source state with at least one observed outgoing
transition, get_transition_probabilities returns a probability table for
that source whose values sum to exactly 1 (hence within 1e-9 of 1), each
value being the (source, destination) transition count divided by the
total count of transitions out of the source. -/
theorem c5_transition_probabilities {α : Type} (storage : List (ActionTrace α))
    (use_modalities : Bool) (src : String)
    (h : 0 < (transitionPairs storage use_modalities).countP fun p => p.1 = src) :
    ∃ probs, (src, probs) ∈ get_transition_probabilities storage use_modalities ∧
      (probs.map fun e => e.2).sum = 1 ∧
      |(probs.map fun e => e.2).sum - 1| ≤ 1 / 1000000000 ∧
      ∀ e ∈ probs,
        e.2 = ((transitionPairs storage use_modalities).countP
            (fun p => p.1 = src && p.2 = e.1) : ℚ) /
          ((transitionPairs storage use_modalities).countP fun p => p.1 = src : ℚ) := by
  obtain ⟨p0, hp0, hp0src⟩ := List.countP_pos_iff.mp h
  have hp0src2 : p0.1 = src := of_decide_eq_true hp0src
  have hsrcmem : src ∈ ((transitionPairs storage use_modalities).map fun p => p.1).dedup := by
    rw [List.mem_dedup]
    rw [← hp0src2]
    exact List.mem_map_of_mem _ hp0
  have hmat : (src, counterOf (((transitionPairs storage use_modalities).filter
      fun p => p.1 = src).map fun p => p.2)) ∈
      compute_transition_matrix storage use_modalities :=
    List.mem_map_of_mem _ hsrcmem
  have hprobs : (src, (counterOf (((transitionPairs storage use_modalities).filter
      fun p => p.1 = src).map fun p => p.2)).map fun c =>
        (c.1, (c.2 : ℚ) / ((((counterOf (((transitionPairs storage use_modalities).filter
          fun p => p.1 = src).map fun p => p.2)).map fun c => c.2).sum : Nat) : ℚ))) ∈
      get_transition_probabilities storage use_modalities :=
    List.mem_map_of_mem _ hmat
  have hlen : (((transitionPairs storage use_modalities).filter
      fun p => p.1 = src).map fun p => p.2).length =
      (transitionPairs storage use_modalities).countP fun p => p.1 = src := by
    rw [List.length_map, ← List.countP_eq_length_filter]
  have hnil : (((transitionPairs storage use_modalities).filter
      fun p => p.1 = src).map fun p => p.2) ≠ [] := by
    intro hcon
    rw [hcon] at hlen
    simp only [List.length_nil] at hlen
    omega
  refine ⟨_, hprobs, ?_, ?_, ?_⟩
  · exact counter_probs_sum _ hnil
  · rw [counter_probs_sum _ hnil]
    norm_num
  · intro e he
    have hentry := counter_probs_entry _ e he
    rw [hentry, count_dests_eq_countP, hlen]

/-- Witness for C5 at the concrete two-action store: source "a" has one
observed outgoing transition. -/
theorem c5_witness :
    ∃ probs, ("a", probs) ∈ get_transition_probabilities twoStepStore false ∧
      (probs.map fun e => e.2).sum = 1 ∧
      |(probs.map fun e => e.2).sum - 1| ≤ 1 / 1000000000 ∧
      ∀ e ∈ probs,
        e.2 = ((transitionPairs twoStepStore false).countP
            (fun p => p.1 = "a" && p.2 = e.1) : ℚ) /
          ((transitionPairs twoStepStore false).countP fun p => p.1 = "a" : ℚ) :=
  c5_transition_probabilities twoStepStore false "a" (by decide)

/-- C7, counterexample: on the two-action session store, the claim's
edge direction fails: the single temporal edge of the session's graph
record runs from node 0 (the predecessor) to node 1, and no edge runs
from node 1 to its immediate predecessor 0. -/
theorem c7_counterexample :
    (iter_traces_session twoStepStore "s").length = 2 ∧
      ((export_for_tgnn twoStepStore).map fun g =>
        (g.session_id, g.edges.map fun e => (e.source, e.target, e.type))) =
        [("s", [(0, 1, "temporal")])] ∧
      ¬ ∃ g ∈ export_for_tgnn twoStepStore, ∃ e ∈ g.edges,
        e.source = 1 ∧ e.target = 0 := by
  refine ⟨by decide, by decide, by decide⟩


/-- The projections of the node list built by export_for_tgnn: ids are
the positions, the feature columns are the per-action features in
trajectory order, and the temporal positions are index over length. -/
theorem tgnn_nodes_spec {α : Type} (traj : List (ActionTrace α)) :
    (traj.enum.map (tgnnNodeOf traj.length)).length = traj.length ∧
      ((traj.enum.map (tgnnNodeOf traj.length)).map fun n => n.id) =
        List.range traj.length ∧
      ((traj.enum.map (tgnnNodeOf traj.length)).map fun n => n.tool) =
        traj.map (fun t => t.tool) ∧
      ((traj.enum.map (tgnnNodeOf traj.length)).map fun n => n.tool_type) =
        traj.map (fun t => t.tool_type.value) ∧
      ((traj.enum.map (tgnnNodeOf traj.length)).map fun n => n.modality) =
        traj.map (fun t => t.modality.value) ∧
      ((traj.enum.map (tgnnNodeOf traj.length)).map fun n => n.has_error) =
        traj.map (fun t => pyTruthyStr t.error) ∧
      ((traj.enum.map (tgnnNodeOf traj.length)).map fun n => n.files_count) =
        traj.map (fun t => t.files_touched.length) ∧
      ((traj.enum.map (tgnnNodeOf traj.length)).map fun n => n.output_length) =
        traj.map (fun t => t.output.length) ∧
      ((traj.enum.map (tgnnNodeOf traj.length)).map fun n => n.temporal_position) =
        (List.range traj.length).map fun i : ℕ => (i : ℚ) / (traj.length : ℚ) := by
  refine ⟨?_, ?_, ?_, ?_, ?_, ?_, ?_, ?_, ?_⟩
  · rw [List.length_map, List.enum_length]
  · rw [List.map_map]
    exact List.enum_map_fst traj
  · rw [List.map_map]
    conv_rhs => rw [← List.enum_map_snd traj, List.map_map]
    rfl
  · rw [List.map_map]
    conv_rhs => rw [← List.enum_map_snd traj, List.map_map]
    rfl
  · rw [List.map_map]
    conv_rhs => rw [← List.enum_map_snd traj, List.map_map]
    rfl
  · rw [List.map_map]
    conv_rhs => rw [← List.enum_map_snd traj, List.map_map]
    rfl
  · rw [List.map_map]
    conv_rhs => rw [← List.enum_map_snd traj, List.map_map]
    rfl
  · rw [List.map_map]
    conv_rhs => rw [← List.enum_map_snd traj, List.map_map]
    rfl
  · rw [List.map_map]
    conv_rhs => rw [← List.enum_map_fst traj, List.map_map]
    rfl

/-- The edge list built by export_for_tgnn for a trajectory of length N
is the edge i-1 to i for every i in 1..N-1. -/
theorem tgnn_edges_spec (N : Nat) :
    ((List.range N).filterMap fun i =>
        if 0 < i then some (tgnnEdgeOf i) else none) =
      (List.range' 1 (N - 1)).map tgnnEdgeOf := by
  have aux : ∀ l : List Nat, (∀ i ∈ l, 0 < i) →
      (l.filterMap fun i => if 0 < i then some (tgnnEdgeOf i) else none) =
        l.map tgnnEdgeOf := by
    intro l
    induction l with
    | nil => intro _; rfl
    | cons x xs ih =>
      intro hl
      rw [List.filterMap_cons, if_pos (hl x (by simp)), List.map_cons,
        ih fun i hi => hl i (by simp [hi])]
  cases N with
  | zero => rfl
  | succ M =>
    rw [List.range_eq_range', List.range'_succ]
    rw [List.filterMap_cons]
    simp only [lt_irrefl, if_false]
    rw [aux (List.range' 1 M) fun i hi => (List.mem_range'_1.mp hi).1]
    simp

/-- C7, amended: for every session present in the store, export_for_tgnn
emits exactly one graph record with that session id; it has one node per
action of the session's trajectory, node i carrying the action's tool,
tool_type, modality, error flag, files-touched count, output length and
temporal position i / N, and exactly N - 1 temporal edges, one for every
i in 1..N-1, each running from the predecessor i - 1 (source) to node i
(target). -/
theorem c7_amended_tgnn_export {α : Type} (storage : List (ActionTrace α))
    (sid : String) (hsid : sid ∈ storage.map fun t => t.session_id) :
    ((export_for_tgnn storage).countP fun g => g.session_id = sid) = 1 ∧
      ∀ g ∈ export_for_tgnn storage, g.session_id = sid →
        g.nodes.length = (iter_traces_session storage sid).length ∧
        (g.nodes.map fun n => n.id) =
          List.range (iter_traces_session storage sid).length ∧
        (g.nodes.map fun n => n.tool) =
          (iter_traces_session storage sid).map (fun t => t.tool) ∧
        (g.nodes.map fun n => n.tool_type) =
          (iter_traces_session storage sid).map (fun t => t.tool_type.value) ∧
        (g.nodes.map fun n => n.modality) =
          (iter_traces_session storage sid).map (fun t => t.modality.value) ∧
        (g.nodes.map fun n => n.has_error) =
          (iter_traces_session storage sid).map (fun t => pyTruthyStr t.error) ∧
        (g.nodes.map fun n => n.files_count) =
          (iter_traces_session storage sid).map (fun t => t.files_touched.length) ∧
        (g.nodes.map fun n => n.output_length) =
          (iter_traces_session storage sid).map (fun t => t.output.length) ∧
        (g.nodes.map fun n => n.temporal_position) =
          (List.range (iter_traces_session storage sid).length).map
            (fun i : ℕ => (i : ℚ) / ((iter_traces_session storage sid).length : ℚ)) ∧
        g.edges.length = (iter_traces_session storage sid).length - 1 ∧
        ∀ i, 0 < i → i < (iter_traces_session storage sid).length →
          tgnnEdgeOf i ∈ g.edges := by
  constructor
  · have h1 : ((export_for_tgnn storage).countP fun g => g.session_id = sid) =
        ((storage.map fun t => t.session_id).dedup).countP fun s => s = sid := by
      rw [export_for_tgnn, get_trajectories, List.countP_map, List.countP_map]
      rfl
    have h2 : ((storage.map fun t => t.session_id).dedup).countP (fun s => s = sid) =
        List.count sid ((storage.map fun t => t.session_id).dedup) := by
      rw [List.count_eq_countP]
      refine List.countP_congr ?_
      intro x _
      simp [beq_iff_eq]
    rw [h1, h2]
    exact List.count_eq_one_of_mem (List.nodup_dedup _) (List.mem_dedup.mpr hsid)
  · intro g hg hgsid
    rw [export_for_tgnn, List.mem_map] at hg
    obtain ⟨p, hp, rfl⟩ := hg
    rw [get_trajectories, List.mem_map] at hp
    obtain ⟨s0, hs0, rfl⟩ := hp
    have hsid0 : s0 = sid := hgsid
    subst hsid0
    obtain ⟨n1, n2, n3, n4, n5, n6, n7, n8, n9⟩ :=
      tgnn_nodes_spec (iter_traces_session storage s0)
    refine ⟨n1, n2, n3, n4, n5, n6, n7, n8, n9, ?_, ?_⟩
    · show ((List.range (iter_traces_session storage s0).length).filterMap fun i =>
        if 0 < i then some (tgnnEdgeOf i) else none).length =
        (iter_traces_session storage s0).length - 1
      rw [tgnn_edges_spec, List.length_map, List.length_range']
    · intro i hi1 hi2
      show tgnnEdgeOf i ∈ (List.range (iter_traces_session storage s0).length).filterMap
        fun i => if 0 < i then some (tgnnEdgeOf i) else none
      rw [tgnn_edges_spec]
      refine List.mem_map_of_mem _ ?_
      rw [List.mem_range'_1]
      omega

/-- Witness for the amended C7 at the concrete two-action store. -/
theorem c7_amended_witness :
    ((export_for_tgnn twoStepStore).countP fun g => g.session_id = "s") = 1 := by
  obtain ⟨h1, _⟩ := c7_amended_tgnn_export twoStepStore "s" (by decide)
  exact h1

/-- C1, counterexample: on the single-session store with tool sequence
a, b, a, b and parameters min_length 2, max_length 2, min_frequency 2,
find_tool_sequences returns the pattern (a, b) with frequency 2, yet
only 1 distinct session contains that n-gram: the reported frequency is
the total occurrence count, not the distinct-session count, and the
n-gram is retained although its distinct-session count 1 is below
min_frequency 2. -/
theorem c1_counterexample :
    ((find_tool_sequences c1store 2 2 2).map fun p => (p.pattern, p.frequency)) =
      [(["a", "b"], 2)] ∧
      specDistinctSessionCount c1store ["a", "b"] = 1 ∧
      (2 : Nat) ≠ 1 := by
  refine ⟨by decide, by decide, by decide⟩

/-- The accumulated session list of an n-gram has one entry per
occurrence. -/
theorem sessions_length_eq_countP {α : Type} (storage : List (ActionTrace α))
    (minL maxL : Nat) (g : List String) :
    (((allOccs storage minL maxL).filter fun o => o.ngram = g).map
      fun o => o.session_id).length =
      (allOccs storage minL maxL).countP fun o => o.ngram = g := by
  rw [List.length_map, ← List.countP_eq_length_filter]

/-- C1, amended: every PatternMatch returned by find_tool_sequences has
frequency equal to the total number of occurrences of its n-gram across
all sessions (occurrences inside the same session each counted), and an
n-gram is retained if and only if it occurs at least once at an
admissible length and its total occurrence count is at least
min_frequency. -/
theorem c1_amended_frequency_is_total_occurrences {α : Type}
    (storage : List (ActionTrace α)) (minL maxL minF : Nat) :
    (∀ p ∈ find_tool_sequences storage minL maxL minF,
        p.frequency = ((allOccs storage minL maxL).countP fun o => o.ngram = p.pattern) ∧
        minF ≤ p.frequency) ∧
      ∀ g : List String,
        (∃ p ∈ find_tool_sequences storage minL maxL minF, p.pattern = g) ↔
          1 ≤ ((allOccs storage minL maxL).countP fun o => o.ngram = g) ∧
            minF ≤ ((allOccs storage minL maxL).countP fun o => o.ngram = g) := by
  constructor
  · intro p hp
    simp only [find_tool_sequences] at hp
    rw [mem_pySort, List.mem_filterMap] at hp
    obtain ⟨g, hgk, hFg⟩ := hp
    split at hFg
    · rename_i hcond
      rw [Option.some_inj] at hFg
      subst hFg
      simp only
      rw [sessions_length_eq_countP] at hcond ⊢
      exact ⟨rfl, hcond⟩
    · exact absurd hFg (by simp)
  · intro g
    constructor
    · rintro ⟨p, hp, rfl⟩
      simp only [find_tool_sequences] at hp
      rw [mem_pySort, List.mem_filterMap] at hp
      obtain ⟨g0, hgk, hFg⟩ := hp
      split at hFg
      · rename_i hcond
        rw [Option.some_inj] at hFg
        subst hFg
        simp only
        rw [sessions_length_eq_countP] at hcond
        refine ⟨?_, hcond⟩
        rw [List.mem_dedup] at hgk
        obtain ⟨o, ho, hog⟩ := List.mem_map.mp hgk
        refine List.countP_pos_iff.mpr ⟨o, ho, ?_⟩
        simp [hog]
      · exact absurd hFg (by simp)
    · rintro ⟨hocc, hminF⟩
      obtain ⟨o, ho, hog⟩ := List.countP_pos_iff.mp hocc
      have hog2 : o.ngram = g := of_decide_eq_true hog
      have hgk : g ∈ ((allOccs storage minL maxL).map fun o => o.ngram).dedup := by
        rw [List.mem_dedup, ← hog2]
        exact List.mem_map_of_mem _ ho
      have hcond : minF ≤ (((allOccs storage minL maxL).filter
          fun o => o.ngram = g).map fun o => o.session_id).length := by
        rw [sessions_length_eq_countP]
        exact hminF
      have hmem : ({ pattern := g
                     frequency := (((allOccs storage minL maxL).filter
                       fun o => o.ngram = g).map fun o => o.session_id).length
                     example_sessions := (((allOccs storage minL maxL).filter
                       fun o => o.ngram = g).map fun o => o.session_id).dedup.take 5
                     avg_duration_ms :=
                       if (((allOccs storage minL maxL).filter
                           fun o => o.ngram = g).map fun o => o.duration).length ≠ 0 then
                         (((allOccs storage minL maxL).filter
                           fun o => o.ngram = g).map fun o => o.duration).sum /
                           ((((allOccs storage minL maxL).filter
                             fun o => o.ngram = g).map fun o => o.duration).length : ℚ)
                       else 0 } : PatternMatch) ∈
          find_tool_sequences storage minL maxL minF := by
        simp only [find_tool_sequences]
        rw [mem_pySort, List.mem_filterMap]
        refine ⟨g, hgk, ?_⟩
        rw [if_pos hcond]
      exact ⟨_, hmem, rfl⟩

/-- Witness for the amended C1 at the concrete store: (a, b) occurs
twice in the one session, so it is retained at min_frequency 2. -/
theorem c1_amended_witness :
    ∃ p ∈ find_tool_sequences c1store 2 2 2, p.pattern = ["a", "b"] :=
  ((c1_amended_frequency_is_total_occurrences c1store 2 2 2).2 ["a", "b"]).mpr
    ⟨by decide, by decide⟩
